import Mathlib

/-!
Verification development for the jsreport export converter (src/main.py).

The program is shallowly embedded: template and asset content is modelled as
lists of characters (`Chars`), bytes as natural numbers below 256, the asset
registry (the Python dict `self.assets`) as an association list with
Python-dict insert/lookup semantics, and the regular-expression based
placeholder passes of `replace_assets_in_content` as hand-compiled
scanners that mirror the five patterns of the source.  Four of the five
patterns are free of backtracking ambiguity, so a committed greedy
scanner computes exactly the Python `re.finditer` matches; the bare url
pattern admits one backtracking case (its greedy leading whitespace can
give a character back to the whitespace-accepting body class), which the
scanner models explicitly.

Modelling notes, applying throughout:
- the regex classes \s and \w and `str.lower` are modelled on their
  ASCII behaviour (for \s the explicit Unicode whitespace code points of
  CPython are included as well); template names and modes in the spec's
  scope are ASCII;
- `mimetypes.guess_type` is an external system table; it is passed in as a
  parameter `sysMime : Chars -> Option Chars` (`none` models a falsy result);
- `base64.b64decode` is modelled as the character-level state machine of
  binascii a2b_base64 in non-strict mode (padding ignored at quad
  positions 0 and 1, early successful stop once padding completes a quad
  at positions 2 and 3, other non-alphabet characters skipped, an error
  for a trailing incomplete quad).
-/

abbrev Chars := List Char

/-- Whitespace for the regex class \s in CPython on str input. -/
def isPySpace (c : Char) : Bool :=
  c == ' ' || c == '\t' || c == '\n' || c == '\r' || c == '\x0b' || c == '\x0c'
  || c == '\x1c' || c == '\x1d' || c == '\x1e' || c == '\x1f' || c == '\x85'
  || c == '\xa0' || c.toNat == 0x1680 || (0x2000 ≤ c.toNat && c.toNat ≤ 0x200a)
  || c.toNat == 0x2028 || c.toNat == 0x2029 || c.toNat == 0x202f
  || c.toNat == 0x205f || c.toNat == 0x3000

/-- Quote characters matched by the regex class containing the two quote kinds. -/
def isQuote (c : Char) : Bool :=
  c == '"' || c == '\x27'

/-- ASCII model of the regex class \w. -/
def isWordChar (c : Char) : Bool :=
  c.isAlpha || c.isDigit || c == '_'

/-- Characters of the base64 alphabet (letters, digits, plus, slash). -/
def isB64Char (c : Char) : Bool :=
  c.isAlpha || c.isDigit || c == '+' || c == '/'

/-- Value of a base64 alphabet character. -/
def sixVal (c : Char) : Nat :=
  if 'A' ≤ c ∧ c ≤ 'Z' then c.toNat - 65
  else if 'a' ≤ c ∧ c ≤ 'z' then c.toNat - 97 + 26
  else if '0' ≤ c ∧ c ≤ '9' then c.toNat - 48 + 52
  else if c = '+' then 62
  else 63

/-- Base64 alphabet character for a sextet value. -/
def b64char (n : Nat) : Char :=
  if n < 26 then Char.ofNat (65 + n)
  else if n < 52 then Char.ofNat (97 + (n - 26))
  else if n < 62 then Char.ofNat (48 + (n - 52))
  else if n = 62 then '+'
  else '/'

/-- Standard base64 encoding of a byte list, as in base64.b64encode. -/
def b64encode : List Nat → Chars
  | [] => []
  | [b1] => [b64char (b1 / 4), b64char (b1 % 4 * 16), '=', '=']
  | [b1, b2] => [b64char (b1 / 4), b64char (b1 % 4 * 16 + b2 / 16), b64char (b2 % 16 * 4), '=']
  | b1 :: b2 :: b3 :: rest =>
      b64char (b1 / 4) :: b64char (b1 % 4 * 16 + b2 / 16)
        :: b64char (b2 % 16 * 4 + b3 / 64) :: b64char (b3 % 64) :: b64encode rest

/-- State machine of binascii.a2b_base64 in non-strict mode, following
the CPython loop character by character.  A padding character is ignored
at quad positions 0 and 1; at quad positions 2 and 3 the pad counter
rises and once the quad position plus the pad count reaches four the
decode ends successfully, discarding the remaining input.  A character
outside the alphabet is skipped.  An alphabet character resets the pad
counter and advances the quad position, emitting one byte at quad
positions 1, 2 and 3 from the carried leftover bits.  When the input
ends at a quad position other than 0 the decode raises (none): one
leftover data character is impossible, two or three are incorrect
padding. -/
def a2b64 : List Char → Nat → Nat → Nat → Option (List Nat)
  | [], quadPos, _, _ => if quadPos = 0 then some [] else none
  | c :: rest, quadPos, leftchar, pads =>
    if c = '=' then
      if 2 ≤ quadPos ∧ 4 ≤ quadPos + pads + 1 then some []
      else if 2 ≤ quadPos then a2b64 rest quadPos leftchar (pads + 1)
      else a2b64 rest quadPos leftchar pads
    else if isB64Char c then
      let v := sixVal c
      if quadPos = 0 then a2b64 rest 1 v 0
      else if quadPos = 1 then
        (a2b64 rest 2 (v % 16) 0).map (fun bs => (leftchar * 4 + v / 16) :: bs)
      else if quadPos = 2 then
        (a2b64 rest 3 (v % 4) 0).map (fun bs => (leftchar * 16 + v / 4) :: bs)
      else
        (a2b64 rest 0 0 0).map (fun bs => (leftchar * 64 + v) :: bs)
    else a2b64 rest quadPos leftchar pads

/-- Model of base64.b64decode on text input: the string is first converted
to bytes as ASCII (a character outside ASCII raises, modelled as none)
and then run through the non-strict a2b_base64 state machine. -/
def b64decodePy (s : Chars) : Option (List Nat) :=
  if s.any (fun c => 0x80 ≤ c.toNat) then none
  else a2b64 s 0 0 0

/-- Strict UTF-8 decoding of a byte list, as in bytes.decode with utf-8:
overlong encodings, surrogates and code points above 0x10FFFF are
rejected. -/
def utf8Decode : List Nat → Option Chars
  | [] => some []
  | b :: rest =>
    if b < 0x80 then (utf8Decode rest).map (fun t => Char.ofNat b :: t)
    else if b < 0xC2 then none
    else if b ≤ 0xDF then
      match rest with
      | c1 :: rest2 =>
        if 0x80 ≤ c1 ∧ c1 ≤ 0xBF then
          (utf8Decode rest2).map (fun t => Char.ofNat ((b - 0xC0) * 64 + (c1 - 0x80)) :: t)
        else none
      | [] => none
    else if b ≤ 0xEF then
      match rest with
      | c1 :: c2 :: rest2 =>
        if (if b = 0xE0 then 0xA0 else 0x80) ≤ c1 ∧ c1 ≤ (if b = 0xED then 0x9F else 0xBF)
            ∧ 0x80 ≤ c2 ∧ c2 ≤ 0xBF then
          (utf8Decode rest2).map
            (fun t => Char.ofNat ((b - 0xE0) * 4096 + (c1 - 0x80) * 64 + (c2 - 0x80)) :: t)
        else none
      | _ => none
    else if b ≤ 0xF4 then
      match rest with
      | c1 :: c2 :: c3 :: rest2 =>
        if (if b = 0xF0 then 0x90 else 0x80) ≤ c1 ∧ c1 ≤ (if b = 0xF4 then 0x8F else 0xBF)
            ∧ 0x80 ≤ c2 ∧ c2 ≤ 0xBF ∧ 0x80 ≤ c3 ∧ c3 ≤ 0xBF then
          (utf8Decode rest2).map
            (fun t => Char.ofNat ((b - 0xF0) * 262144 + (c1 - 0x80) * 4096
              + (c2 - 0x80) * 64 + (c3 - 0x80)) :: t)
        else none
      | _ => none
    else none

/-- The guarding pattern of decode_base64_if_needed: the regex anchored at
both ends, consisting of base64 alphabet characters followed by up to two
padding characters.  As in Python, the end anchor also matches just before
a single trailing newline, so one trailing newline is stripped first. -/
def pyB64Match (s : Chars) : Bool :=
  let core := if s.getLast? = some '\n' then s.dropLast else s
  let r := core.reverse
  let pads := r.takeWhile (fun c => c == '=')
  let rest := r.dropWhile (fun c => c == '=')
  decide (pads.length ≤ 2) && rest.all isB64Char

/-- Model of decode_base64_if_needed: when the content matches the base64
pattern, attempt to decode it and to interpret the bytes as UTF-8 text;
on any failure (modelled by the Option results) return the content
unchanged, mirroring the bare except of the source. -/
def decode_base64_if_needed (content : Chars) : Chars :=
  if pyB64Match content then
    match b64decodePy content with
    | some bs =>
      match utf8Decode bs with
      | some t => t
      | none => content
    | none => content
  else content

/-- ASCII model of str.lower. -/
def toLowerChars (l : Chars) : Chars := l.map Char.toLower

/-- Extension extraction of get_mime_type: lowercase the filename and take
the segment after the last dot, or the empty extension when the filename
has no dot. -/
def extOf (filename : Chars) : Chars :=
  if filename.contains '.' then
    ((toLowerChars filename).reverse.takeWhile (fun c => !(c == '.'))).reverse
  else []

/-- The fixed fallback table of get_mime_type, keyed by lowercase
extension.  Everything not listed falls to application/octet-stream. -/
def mimeFromExt (ext : Chars) : Chars :=
  if ext = "js".data then "application/javascript".data
  else if ext = "css".data then "text/css".data
  else if ext = "ttf".data then "font/ttf".data
  else if ext = "woff".data then "font/woff".data
  else if ext = "woff2".data then "font/woff2".data
  else if ext = "eot".data then "application/vnd.ms-fontobject".data
  else if ext = "svg".data then "image/svg+xml".data
  else "application/octet-stream".data

/-- Model of get_mime_type.  The system lookup mimetypes.guess_type is the
parameter sysMime; a none or empty result is falsy in the source and
triggers the fallback table. -/
def get_mime_type (sysMime : Chars → Option Chars) (filename : Chars) : Chars :=
  match sysMime filename with
  | some m => if m = [] then mimeFromExt (extOf filename) else m
  | none => mimeFromExt (extOf filename)


/-- One entry of the asset registry self.assets: the stored content string
and the stored mime_type. -/
structure AEntry where
  content : Chars
  mime : Chars
deriving DecidableEq

/-- The asset registry: a Python dict from asset name to entry, modelled
as an association list with dict semantics. -/
abbrev AssetMap := List (Chars × AEntry)

/-- Dict lookup. -/
def dlookup : AssetMap → Chars → Option AEntry
  | [], _ => none
  | (k2, v) :: rest, k => if k2 = k then some v else dlookup rest k

/-- Dict assignment: replace the value when the key is present, append
otherwise (insertion order of a Python dict). -/
def dinsert : AssetMap → Chars → AEntry → AssetMap
  | [], k, v => [(k, v)]
  | (k2, v2) :: rest, k, v =>
      if k2 = k then (k, v) :: rest else (k2, v2) :: dinsert rest k v

/-- Suffix test used for endswith. -/
def endsWithC (l suf : Chars) : Bool :=
  List.isPrefixOf suf.reverse l.reverse

/-- The name.lower().endswith(('.css', '.js')) test of the JSON asset pass. -/
def endsCssJs (name : Chars) : Bool :=
  endsWithC (toLowerChars name) ".css".data || endsWithC (toLowerChars name) ".js".data

/-- Registration step of pass 1 (binary scan): read bytes, base64-encode,
classify, and assign into the registry unconditionally. -/
def binStep (sysMime : Chars → Option Chars) (m : AssetMap) (p : Chars × List Nat) : AssetMap :=
  dinsert m p.1 ⟨b64encode p.2, get_mime_type sysMime p.1⟩

/-- Registration step of pass 2 (JSON descriptors): a descriptor whose
name is missing or empty (falsy) is skipped; for names ending in .css or
.js the base64 heuristic is applied to the content; the assignment into
the registry is unconditional. -/
def jsonStep (sysMime : Chars → Option Chars) (m : AssetMap) (p : Option Chars × Chars) : AssetMap :=
  match p.1 with
  | none => m
  | some name =>
      if name = [] then m
      else
        dinsert m name
          ⟨if endsCssJs name then decode_base64_if_needed p.2 else p.2,
           get_mime_type sysMime name⟩

/-- Registration step of pass 3 (loose text files): skipped when the name
is already present in the registry. -/
def textStep (sysMime : Chars → Option Chars) (m : AssetMap) (p : Chars × Chars) : AssetMap :=
  if (dlookup m p.1).isSome then m
  else dinsert m p.1 ⟨p.2, get_mime_type sysMime p.1⟩

/-- Pass 1 of process_assets over the binary files found by the extension
glob, in traversal order, starting from the empty registry. -/
def assetsPass1 (sysMime : Chars → Option Chars) (bins : List (Chars × List Nat)) : AssetMap :=
  bins.foldl (binStep sysMime) []

/-- Pass 2 of process_assets over the parsed JSON descriptors of the
assets directory (pairs of optional name and content). -/
def assetsPass2 (sysMime : Chars → Option Chars) (jsons : List (Option Chars × Chars))
    (m : AssetMap) : AssetMap :=
  jsons.foldl (jsonStep sysMime) m

/-- Pass 3 of process_assets over the loose .css and .js files. -/
def assetsPass3 (sysMime : Chars → Option Chars) (texts : List (Chars × Chars))
    (m : AssetMap) : AssetMap :=
  texts.foldl (textStep sysMime) m

/-- Model of process_assets: the three discovery passes run in order on
the initially empty registry.  Individual-file read and parse failures are
outside the model: the input lists hold the successfully read files. -/
def process_assets (sysMime : Chars → Option Chars) (bins : List (Chars × List Nat))
    (jsons : List (Option Chars × Chars)) (texts : List (Chars × Chars)) : AssetMap :=
  assetsPass3 sysMime texts (assetsPass2 sysMime jsons (assetsPass1 sysMime bins))

/-- One regex match: the matched text and the captured groups (the bare
url pattern has a single group, stored in g1 with g2 empty). -/
structure RMatch where
  matched : Chars
  g1 : Chars
  g2 : Chars
deriving DecidableEq

/-- Consume an expected literal character sequence. -/
def eatLit : Chars → Chars → Option Chars
  | [], l => some l
  | _ :: _, [] => none
  | c :: cs, x :: xs => if x = c then eatLit cs xs else none

/-- Consume one quote character (either kind, as in the regex class). -/
def eatQuote : Chars → Option Chars
  | [] => none
  | c :: rest => if isQuote c then some rest else none

/-- Consume one quote character when present (the optional quote of the
bare url pattern). -/
def eatOptQuote : Chars → Chars
  | [] => []
  | c :: rest => if isQuote c then rest else c :: rest

/-- Consume a maximal nonempty run of characters satisfying p, failing on
an empty run (the regex one-or-more repetition of a character class). -/
def splitWhile1 (p : Char → Bool) (l : Chars) : Option (Chars × Chars) :=
  if l.takeWhile p = [] then none else some (l.takeWhile p, l.dropWhile p)

/-- Scanner for the standard asset tag pattern of the source:
two open braces, optional spaces, the word asset, optional spaces, a
quoted name, optional spaces, a quoted mode, optional spaces, two close
braces, with either quote kind on any of the four quote positions and the
quoted bodies being nonempty runs of non-quote characters. -/
def tryStd (l : Chars) : Option RMatch := do
  let r1 ← eatLit ['\x7b', '\x7b'] l
  let r2 := List.dropWhile isPySpace r1
  let r3 ← eatLit ['a', 's', 's', 'e', 't'] r2
  let r4 := List.dropWhile isPySpace r3
  let r5 ← eatQuote r4
  let p1 ← splitWhile1 (fun c => !(isQuote c)) r5
  let r6 ← eatQuote p1.2
  let r7 := List.dropWhile isPySpace r6
  let r8 ← eatQuote r7
  let p2 ← splitWhile1 (fun c => !(isQuote c)) r8
  let r9 ← eatQuote p2.2
  let r10 := List.dropWhile isPySpace r9
  let r11 ← eatLit ['\x7d', '\x7d'] r10
  some ⟨List.take (l.length - r11.length) l, p1.1, p2.1⟩

/-- Scanner for the alternate asset tag pattern: brace, hash, the word
asset, whitespace, a name made of non-whitespace non-at characters,
whitespace, the literal encoding marker, a word-character encoding and a
closing brace. -/
def tryAlt (l : Chars) : Option RMatch := do
  let r1 ← eatLit ['\x7b', '#', 'a', 's', 's', 'e', 't'] l
  let p0 ← splitWhile1 isPySpace r1
  let p1 ← splitWhile1 (fun c => !(isPySpace c) && !(c == '@')) p0.2
  let p2 ← splitWhile1 isPySpace p1.2
  let r2 ← eatLit ['@', 'e', 'n', 'c', 'o', 'd', 'i', 'n', 'g', '='] p2.2
  let p3 ← splitWhile1 isWordChar r2
  let r3 ← eatLit ['\x7d'] p3.2
  some ⟨List.take (l.length - r3.length) l, p1.1, p3.1⟩

/-- Scanner for the src-attribute pattern: the word src, optional spaces,
an equals sign, optional spaces, a quote, the standard tag with no space
after the braces, a closing quote. -/
def trySrc (l : Chars) : Option RMatch := do
  let r1 ← eatLit ['s', 'r', 'c'] l
  let r2 := List.dropWhile isPySpace r1
  let r3 ← eatLit ['='] r2
  let r4 := List.dropWhile isPySpace r3
  let r5 ← eatQuote r4
  let r6 ← eatLit ['\x7b', '\x7b', 'a', 's', 's', 'e', 't'] r5
  let r7 := List.dropWhile isPySpace r6
  let r8 ← eatQuote r7
  let p1 ← splitWhile1 (fun c => !(isQuote c)) r8
  let r9 ← eatQuote p1.2
  let r10 := List.dropWhile isPySpace r9
  let r11 ← eatQuote r10
  let p2 ← splitWhile1 (fun c => !(isQuote c)) r11
  let r12 ← eatQuote p2.2
  let r13 ← eatLit ['\x7d', '\x7d'] r12
  let r14 ← eatQuote r13
  some ⟨List.take (l.length - r14.length) l, p1.1, p2.1⟩

/-- Scanner for the url-wrapped alternate tag pattern. -/
def tryUrlAlt (l : Chars) : Option RMatch := do
  let r1 ← eatLit ['u', 'r', 'l'] l
  let r2 := List.dropWhile isPySpace r1
  let r3 ← eatLit ['('] r2
  let r4 := List.dropWhile isPySpace r3
  let r5 ← eatLit ['\x7b', '#', 'a', 's', 's', 'e', 't'] r4
  let p0 ← splitWhile1 isPySpace r5
  let p1 ← splitWhile1 (fun c => !(isPySpace c) && !(c == '@')) p0.2
  let p2 ← splitWhile1 isPySpace p1.2
  let r6 ← eatLit ['@', 'e', 'n', 'c', 'o', 'd', 'i', 'n', 'g', '='] p2.2
  let p3 ← splitWhile1 isWordChar r6
  let r7 ← eatLit ['\x7d'] p3.2
  let r8 := List.dropWhile isPySpace r7
  let r9 ← eatLit [')'] r8
  some ⟨List.take (l.length - r9.length) l, p1.1, p3.1⟩

/-- Greedy tail of the bare url pattern after the whitespace following
the open parenthesis: an optional quote, a nonempty body of characters
that are not quotes or parentheses, an optional quote, optional spaces
and a close parenthesis; returns the captured body and the rest. -/
def tryUrlBody (r4 : Chars) : Option (Chars × Chars) := do
  let r5 := eatOptQuote r4
  let p1 ← splitWhile1 (fun c => !(isQuote c) && !(c == '(') && !(c == ')')) r5
  let r6 := eatOptQuote p1.2
  let r7 := List.dropWhile isPySpace r6
  let r8 ← eatLit [')'] r7
  some (p1.1, r8)

/-- Scanner for the bare url pattern: the word url, optional spaces, an
open parenthesis, then the whitespace run, the greedy tail, and on its
failure the one backtracking rescue the source regex admits.  The body
class accepts whitespace while the greedy leading whitespace repetition
can give characters back, so when the greedy tail fails and at least one
whitespace character follows the parenthesis, the engine retries with
the last whitespace character as the body; that retry succeeds exactly
when the whitespace run is followed directly by the close parenthesis,
or by a quote and then the close parenthesis, capturing that single
whitespace character.  (Giving back more than one character, or retrying
after a nonempty greedy body, exposes only body-class characters and
reaches the same failing closing context, so no other rescue exists.) -/
def tryUrl (l : Chars) : Option RMatch := do
  let r1 ← eatLit ['u', 'r', 'l'] l
  let r2 := List.dropWhile isPySpace r1
  let r3 ← eatLit ['('] r2
  let sp := List.takeWhile isPySpace r3
  let r4 := List.dropWhile isPySpace r3
  match tryUrlBody r4 with
  | some pr => some ⟨List.take (l.length - pr.2.length) l, pr.1, []⟩
  | none =>
      if sp = [] then none
      else
        match r4 with
        | ')' :: rest =>
            some ⟨List.take (l.length - rest.length) l, [sp.getLast?.getD ' '], []⟩
        | q :: ')' :: rest =>
            if isQuote q then
              some ⟨List.take (l.length - rest.length) l, [sp.getLast?.getD ' '], []⟩
            else none
        | _ => none

/-- Scan for the non-overlapping matches of a pattern, left to right, as
re.finditer does: at each position try the pattern; after a match, resume
at the end of the matched text (the skip counter crosses its remaining
characters). -/
def findIterGo (f : Chars → Option RMatch) : Chars → Nat → List RMatch
  | [], _ => []
  | _ :: rest, Nat.succ k => findIterGo f rest k
  | c :: rest, Nat.zero =>
      match f (c :: rest) with
      | some m => m :: findIterGo f rest (m.matched.length - 1)
      | none => findIterGo f rest 0

/-- All matches of a pattern in a string, in order. -/
def findIter (f : Chars → Option RMatch) (l : Chars) : List RMatch :=
  findIterGo f l 0

/-- Prefix test. -/
def isPrefixC : Chars → Chars → Bool
  | [], _ => true
  | _ :: _, [] => false
  | a :: as2, b :: bs => if a = b then isPrefixC as2 bs else false

/-- Replacement worker for str.replace: emit characters until the old
text is a prefix of the remainder, then emit the new text and skip the
old text, scanning on after it (non-overlapping, left to right). -/
def rgo (old new : Chars) : Chars → Nat → Chars
  | [], _ => []
  | _ :: rest, Nat.succ k => rgo old new rest k
  | c :: rest, Nat.zero =>
      if isPrefixC old (c :: rest) then new ++ rgo old new rest (old.length - 1)
      else c :: rgo old new rest 0

/-- Model of str.replace: replace every occurrence of old by new. -/
def replaceAll (s old new : Chars) : Chars := rgo old new s 0

/-- Last path segment of a url, as in url.split('/')[-1]. -/
def lastSeg (url : Chars) : Chars :=
  (url.reverse.takeWhile (fun c => !(c == '/'))).reverse

/-- The data URI built by the resolver from a registry entry: the stored
content is inserted verbatim after the base64 marker. -/
def dataUriChars (a : AEntry) : Chars :=
  "data:".data ++ a.mime ++ ";base64,".data ++ a.content

/-- The utf8 mode string of the standard tag. -/
def modeUtf8 : Chars := ['u', 't', 'f', '8']

/-- The dataURI mode string of the standard tag. -/
def modeDataURI : Chars := ['d', 'a', 't', 'a', 'U', 'R', 'I']

/-- The literal data: prefix tested by the bare url pass. -/
def dataColon : Chars := ['d', 'a', 't', 'a', ':']

/-- Replacement action for one standard tag match: a registered name is
replaced by the raw stored content in utf8 mode, by the data URI in
dataURI mode, and by the empty string in any other mode; an unregistered
name leaves the content unchanged. -/
def applyStd (assets : AssetMap) (c : Chars) (m : RMatch) : Chars :=
  match dlookup assets m.g1 with
  | some a =>
      replaceAll c m.matched
        (if m.g2 = modeUtf8 then a.content
         else if m.g2 = modeDataURI then dataUriChars a
         else [])
  | none => c

/-- Replacement action for one alternate tag match: only a registered name
with encoding datauri (case-insensitively) is replaced, by the data URI. -/
def applyAlt (assets : AssetMap) (c : Chars) (m : RMatch) : Chars :=
  match dlookup assets m.g1 with
  | some a =>
      if toLowerChars m.g2 = "datauri".data then replaceAll c m.matched (dataUriChars a)
      else c
  | none => c

/-- Replacement action for one src-attribute match: only a registered name
in dataURI mode is replaced, by a src attribute holding the data URI. -/
def applySrc (assets : AssetMap) (c : Chars) (m : RMatch) : Chars :=
  match dlookup assets m.g1 with
  | some a =>
      if m.g2 = modeDataURI then
        replaceAll c m.matched ("src=\"".data ++ dataUriChars a ++ "\"".data)
      else c
  | none => c

/-- Replacement action for one url-wrapped alternate tag match. -/
def applyUrlAlt (assets : AssetMap) (c : Chars) (m : RMatch) : Chars :=
  match dlookup assets m.g1 with
  | some a =>
      if toLowerChars m.g2 = "datauri".data then
        replaceAll c m.matched ("url(\"".data ++ dataUriChars a ++ "\")".data)
      else c
  | none => c

/-- Replacement action for one bare url match: a url already carrying the
data: prefix is skipped; otherwise the basename of the url is looked up
and, when registered, the whole url expression is replaced. -/
def applyUrl (assets : AssetMap) (c : Chars) (m : RMatch) : Chars :=
  if isPrefixC dataColon m.g1 then c
  else
    match dlookup assets (lastSeg m.g1) with
    | some a => replaceAll c m.matched ("url(\"".data ++ dataUriChars a ++ "\")".data)
    | none => c

/-- Pass over the standard tag matches: the matches are computed on the
incoming content once, and the replacements are applied successively to
the evolving content, as the source's finditer loop does. -/
def passStd (assets : AssetMap) (c : Chars) : Chars :=
  List.foldl (applyStd assets) c (findIter tryStd c)

/-- Pass over the alternate tag matches. -/
def passAlt (assets : AssetMap) (c : Chars) : Chars :=
  List.foldl (applyAlt assets) c (findIter tryAlt c)

/-- Pass over the src-attribute matches. -/
def passSrc (assets : AssetMap) (c : Chars) : Chars :=
  List.foldl (applySrc assets) c (findIter trySrc c)

/-- Pass over the url-wrapped alternate tag matches. -/
def passUrlAlt (assets : AssetMap) (c : Chars) : Chars :=
  List.foldl (applyUrlAlt assets) c (findIter tryUrlAlt c)

/-- Pass over the bare url matches. -/
def passUrl (assets : AssetMap) (c : Chars) : Chars :=
  List.foldl (applyUrl assets) c (findIter tryUrl c)

/-- Model of replace_assets_in_content: the five passes in the order of
the source (standard tag, alternate tag, src attribute, url-wrapped
alternate tag, bare url). -/
def replace_assets_in_content (assets : AssetMap) (c : Chars) : Chars :=
  passUrl assets (passUrlAlt assets (passSrc assets (passAlt assets (passStd assets c))))

/-- JSON values, as loaded by json.load for template descriptors. -/
inductive JVal where
  | jnull : JVal
  | jbool : Bool → JVal
  | jnum : Int → JVal
  | jstr : Chars → JVal
  | jarr : List JVal → JVal
  | jobj : List (Chars × JVal) → JVal

/-- Key lookup in a parsed JSON object. -/
def klookup : List (Chars × JVal) → Chars → Option JVal
  | [], _ => none
  | (k2, v) :: rest, k => if k2 = k then some v else klookup rest k

/-- Key assignment in a parsed JSON object (dict semantics). -/
def kupdate : List (Chars × JVal) → Chars → JVal → List (Chars × JVal)
  | [], k, v => [(k, v)]
  | (k2, v2) :: rest, k, v =>
      if k2 = k then (k, v) :: rest else (k2, v2) :: kupdate rest k v

/-- The Python membership test of the string content in a list value:
true exactly when some element is the string content. -/
def hasContentElem (xs : List JVal) : Bool :=
  xs.any (fun v =>
    match v with
    | JVal.jstr s => decide (s = "content".data)
    | _ => false)

/-- Per-file body of the dedicated templates-directory loop: copy the
parsed value, and when a content entry exists rewrite it through the
resolver.  A none result models the logged skip through the surrounding
except: scalars have no copy method, a list containing the string content
and an object whose content value is not a string both raise on the
content access or on the regex scan. -/
def processTemplateFile (assets : AssetMap) (v : JVal) : Option JVal :=
  match v with
  | JVal.jobj fields =>
      match klookup fields "content".data with
      | some (JVal.jstr s) =>
          some (JVal.jobj (kupdate fields "content".data
            (JVal.jstr (replace_assets_in_content assets s))))
      | some _ => none
      | none => some (JVal.jobj fields)
  | JVal.jarr xs => if hasContentElem xs then none else some (JVal.jarr xs)
  | _ => none

/-- Per-file body of the root fallback loop: only a parsed object holding
a content entry is taken, rewritten through the resolver; a non-string
content raises and is skipped. -/
def processRootFile (assets : AssetMap) (v : JVal) : Option JVal :=
  match v with
  | JVal.jobj fields =>
      match klookup fields "content".data with
      | some (JVal.jstr s) =>
          some (JVal.jobj (kupdate fields "content".data
            (JVal.jstr (replace_assets_in_content assets s))))
      | _ => none
  | _ => none

/-- The dedicated-directory loop of process_templates, appending each
successfully processed record in order. -/
def goDir (assets : AssetMap) : List JVal → List JVal
  | [] => []
  | v :: vs =>
      match processTemplateFile assets v with
      | some t => t :: goDir assets vs
      | none => goDir assets vs

/-- The root fallback loop of process_templates: top-level descriptor
files by name, the reserved export metadata file excluded. -/
def goRoot (assets : AssetMap) : List (Chars × JVal) → List JVal
  | [] => []
  | (n, v) :: vs =>
      if n = "export.json".data then goRoot assets vs
      else
        match processRootFile assets v with
        | some t => t :: goRoot assets vs
        | none => goRoot assets vs

/-- Model of process_templates: when the templates directory exists its
descriptors are processed, and only then; otherwise the root files are. -/
def process_templates (assets : AssetMap) (dirExists : Bool) (dirFiles : List JVal)
    (rootFiles : List (Chars × JVal)) : List JVal :=
  if dirExists then goDir assets dirFiles else goRoot assets rootFiles

lemma dlookup_dinsert (m : AssetMap) (k : Chars) (v : AEntry) (k2 : Chars) :
    dlookup (dinsert m k v) k2 = if k2 = k then some v else dlookup m k2 := by
  induction m with
  | nil =>
      simp only [dinsert, dlookup]
      by_cases h : k2 = k
      · subst h; simp
      · rw [if_neg (Ne.symm h), if_neg h]
  | cons p rest ih =>
      obtain ⟨k1, v1⟩ := p
      by_cases h1 : k1 = k
      · subst h1
        by_cases h2 : k2 = k1
        · subst h2; simp [dinsert, dlookup]
        · simp [dinsert, dlookup, h2, Ne.symm h2]
      · by_cases h2 : k2 = k1
        · subst h2; simp [dinsert, dlookup, h1]
        · simp [dinsert, dlookup, h1, h2, Ne.symm h2, ih]

lemma takeWhile_append_stop {p : Char → Bool} :
    ∀ (l1 : Chars) (c : Char) (l2 : Chars), (∀ x ∈ l1, p x = true) → p c = false →
      List.takeWhile p (l1 ++ c :: l2) = l1 := by
  intro l1
  induction l1 with
  | nil => intro c l2 _ hc; simp [List.takeWhile, hc]
  | cons a t ih =>
      intro c l2 hall hc
      have ha : p a = true := hall a (by simp)
      have ht := ih c l2 (fun x hx => hall x (by simp [hx])) hc
      simp only [List.cons_append, List.takeWhile, ha, List.append_eq, ht]

lemma dropWhile_append_stop {p : Char → Bool} :
    ∀ (l1 : Chars) (c : Char) (l2 : Chars), (∀ x ∈ l1, p x = true) → p c = false →
      List.dropWhile p (l1 ++ c :: l2) = c :: l2 := by
  intro l1
  induction l1 with
  | nil => intro c l2 _ hc; simp [List.dropWhile, hc]
  | cons a t ih =>
      intro c l2 hall hc
      have ha : p a = true := hall a (by simp)
      have ht := ih c l2 (fun x hx => hall x (by simp [hx])) hc
      simp only [List.cons_append, List.dropWhile, ha, List.append_eq, ht]

lemma splitWhile1_concat {p : Char → Bool} (l1 : Chars) (c : Char) (l2 : Chars)
    (h1 : l1 ≠ []) (h2 : ∀ x ∈ l1, p x = true) (h3 : p c = false) :
    splitWhile1 p (l1 ++ c :: l2) = some (l1, c :: l2) := by
  unfold splitWhile1
  rw [takeWhile_append_stop l1 c l2 h2 h3, dropWhile_append_stop l1 c l2 h2 h3]
  simp [h1]

/-- The tail of a canonical standard asset tag after its first character. -/
def stdTagTail (n m : Chars) : Chars :=
  '\x7b' :: ' ' :: 'a' :: 's' :: 's' :: 'e' :: 't' :: ' ' :: '"'
    :: (n ++ '"' :: ' ' :: '"' :: (m ++ ['"', ' ', '\x7d', '\x7d']))

/-- A canonical standard asset tag with double quotes and single spaces,
holding the given name and mode. -/
def stdTag (n m : Chars) : Chars := '\x7b' :: stdTagTail n m

lemma bind_some_eq {α β : Type} (x : α) (f : α → Option β) : Option.bind (some x) f = f x := rfl

lemma tryStd_prefix (l : Chars) :
    tryStd ('\x7b' :: '\x7b' :: ' ' :: 'a' :: 's' :: 's' :: 'e' :: 't' :: ' ' :: '"' :: l)
      = Option.bind (splitWhile1 (fun c => !(isQuote c)) l) (fun p1 =>
          Option.bind (eatQuote p1.2) (fun r6 =>
            Option.bind (eatQuote (List.dropWhile isPySpace r6)) (fun r8 =>
              Option.bind (splitWhile1 (fun c => !(isQuote c)) r8) (fun p2 =>
                Option.bind (eatQuote p2.2) (fun r9 =>
                  Option.bind (eatLit ['\x7d', '\x7d'] (List.dropWhile isPySpace r9)) (fun r11 =>
                    some ⟨List.take
                        (('\x7b' :: '\x7b' :: ' ' :: 'a' :: 's' :: 's' :: 'e' :: 't' :: ' ' :: '"' :: l).length
                          - r11.length)
                        ('\x7b' :: '\x7b' :: ' ' :: 'a' :: 's' :: 's' :: 'e' :: 't' :: ' ' :: '"' :: l),
                      p1.1, p2.1⟩)))))) := rfl

lemma dropSp_dquote (l : Chars) : List.dropWhile isPySpace ('"' :: l) = '"' :: l := rfl

lemma dropSp_space (l : Chars) : List.dropWhile isPySpace (' ' :: l) = List.dropWhile isPySpace l := rfl

lemma dropSp_close (l : Chars) : List.dropWhile isPySpace ('\x7d' :: l) = '\x7d' :: l := rfl

lemma eatQuote_dq (l : Chars) : eatQuote ('"' :: l) = some l := rfl

lemma eatLit_close2 (l : Chars) : eatLit ['\x7d', '\x7d'] ('\x7d' :: '\x7d' :: l) = some l := rfl

lemma stdTag_expand (n m : Chars) :
    stdTag n m = '\x7b' :: '\x7b' :: ' ' :: 'a' :: 's' :: 's' :: 'e' :: 't' :: ' ' :: '"'
      :: (n ++ '"' :: ' ' :: '"' :: (m ++ ['"', ' ', '\x7d', '\x7d'])) := rfl

lemma tryStd_stdTag (n m : Chars) (hn : n ≠ []) (hqn : ∀ c ∈ n, isQuote c = false)
    (hm : m ≠ []) (hqm : ∀ c ∈ m, isQuote c = false) :
    tryStd (stdTag n m) = some ⟨stdTag n m, n, m⟩ := by
  have hs1 : splitWhile1 (fun c => !(isQuote c))
        (n ++ '"' :: ' ' :: '"' :: (m ++ ['"', ' ', '\x7d', '\x7d']))
      = some (n, '"' :: ' ' :: '"' :: (m ++ ['"', ' ', '\x7d', '\x7d'])) :=
    splitWhile1_concat n '"' _ hn (fun x hx => by simp [hqn x hx]) (by simp [isQuote])
  have hs2 : splitWhile1 (fun c => !(isQuote c)) (m ++ ['"', ' ', '\x7d', '\x7d'])
      = some (m, ['"', ' ', '\x7d', '\x7d']) :=
    splitWhile1_concat m '"' _ hm (fun x hx => by simp [hqm x hx]) (by simp [isQuote])
  rw [stdTag_expand, tryStd_prefix, hs1, bind_some_eq]
  simp only [eatQuote_dq, bind_some_eq, dropSp_space, dropSp_dquote, hs2, eatLit_close2,
    dropSp_close, List.length_nil, Nat.sub_zero, List.take_length]

lemma findIterGo_nil_of_le (f : Chars → Option RMatch) :
    ∀ (l : Chars) (k : Nat), l.length ≤ k → findIterGo f l k = [] := by
  intro l
  induction l with
  | nil => intro k _; cases k <;> rfl
  | cons c rest ih =>
      intro k hk
      cases k with
      | zero => simp at hk
      | succ k2 =>
          show findIterGo f rest k2 = []
          exact ih k2 (by simpa using hk)

lemma findIter_stdTag (n m : Chars) (hn : n ≠ []) (hqn : ∀ c ∈ n, isQuote c = false)
    (hm : m ≠ []) (hqm : ∀ c ∈ m, isQuote c = false) :
    findIter tryStd (stdTag n m) = [⟨stdTag n m, n, m⟩] := by
  have h0 : findIter tryStd (stdTag n m)
      = match tryStd (stdTag n m) with
        | some mm => mm :: findIterGo tryStd (stdTagTail n m) (mm.matched.length - 1)
        | none => findIterGo tryStd (stdTagTail n m) 0 := rfl
  rw [h0, tryStd_stdTag n m hn hqn hm hqm]
  show (⟨stdTag n m, n, m⟩ : RMatch)
      :: findIterGo tryStd (stdTagTail n m) ((stdTag n m).length - 1) = _
  rw [findIterGo_nil_of_le tryStd (stdTagTail n m) ((stdTag n m).length - 1) (by simp [stdTag])]

lemma isPrefixC_refl : ∀ (l : Chars), isPrefixC l l = true := by
  intro l
  induction l with
  | nil => rfl
  | cons c rest ih => simp [isPrefixC, ih]

lemma rgo_nil_of_le (old new : Chars) :
    ∀ (l : Chars) (k : Nat), l.length ≤ k → rgo old new l k = [] := by
  intro l
  induction l with
  | nil => intro k _; cases k <;> rfl
  | cons c rest ih =>
      intro k hk
      cases k with
      | zero => simp at hk
      | succ k2 =>
          show rgo old new rest k2 = []
          exact ih k2 (by simpa using hk)

lemma replaceAll_self (c : Char) (t new : Chars) :
    replaceAll (c :: t) (c :: t) new = new := by
  show rgo (c :: t) new (c :: t) 0 = new
  have h0 : rgo (c :: t) new (c :: t) 0
      = if isPrefixC (c :: t) (c :: t) then new ++ rgo (c :: t) new t ((c :: t).length - 1)
        else c :: rgo (c :: t) new t 0 := rfl
  rw [h0, if_pos (isPrefixC_refl (c :: t)),
    rgo_nil_of_le (c :: t) new t ((c :: t).length - 1) (by simp), List.append_nil]

lemma foldl_applyStd_unres (assets : AssetMap) :
    ∀ (ms : List RMatch) (c : Chars), (∀ mm ∈ ms, dlookup assets mm.g1 = none) →
      List.foldl (applyStd assets) c ms = c := by
  intro ms
  induction ms with
  | nil => intro c _; rfl
  | cons m rest ih =>
      intro c hall
      have h1 : applyStd assets c m = c := by
        unfold applyStd
        rw [hall m (by simp)]
      rw [List.foldl_cons, h1]
      exact ih c (fun mm hmm => hall mm (by simp [hmm]))

lemma foldl_applyUrl_skip (assets : AssetMap) :
    ∀ (ms : List RMatch) (c : Chars),
      (∀ mm ∈ ms, isPrefixC dataColon mm.g1 = true ∨ dlookup assets (lastSeg mm.g1) = none) →
      List.foldl (applyUrl assets) c ms = c := by
  intro ms
  induction ms with
  | nil => intro c _; rfl
  | cons m rest ih =>
      intro c hall
      have h1 : applyUrl assets c m = c := by
        unfold applyUrl
        rcases hall m (by simp) with h | h
        · rw [if_pos h]
        · by_cases hp : isPrefixC dataColon m.g1 = true
          · rw [if_pos hp]
          · rw [if_neg hp, h]
      rw [List.foldl_cons, h1]
      exact ih c (fun mm hmm => hall mm (by simp [hmm]))

lemma passStd_of_no_match (assets : AssetMap) (c : Chars) (h : findIter tryStd c = []) :
    passStd assets c = c := by
  unfold passStd
  rw [h]
  rfl

lemma passAlt_of_no_match (assets : AssetMap) (c : Chars) (h : findIter tryAlt c = []) :
    passAlt assets c = c := by
  unfold passAlt
  rw [h]
  rfl

lemma passSrc_of_no_match (assets : AssetMap) (c : Chars) (h : findIter trySrc c = []) :
    passSrc assets c = c := by
  unfold passSrc
  rw [h]
  rfl

lemma passUrlAlt_of_no_match (assets : AssetMap) (c : Chars) (h : findIter tryUrlAlt c = []) :
    passUrlAlt assets c = c := by
  unfold passUrlAlt
  rw [h]
  rfl

lemma passUrl_of_skips (assets : AssetMap) (c : Chars)
    (h : ∀ mm ∈ findIter tryUrl c, isPrefixC dataColon mm.g1 = true
        ∨ dlookup assets (lastSeg mm.g1) = none) :
    passUrl assets c = c :=
  foldl_applyUrl_skip assets (findIter tryUrl c) c h

lemma resolver_fix (assets : AssetMap) (c : Chars)
    (h1 : findIter tryStd c = []) (h2 : findIter tryAlt c = [])
    (h3 : findIter trySrc c = []) (h4 : findIter tryUrlAlt c = [])
    (h5 : ∀ mm ∈ findIter tryUrl c, isPrefixC dataColon mm.g1 = true
        ∨ dlookup assets (lastSeg mm.g1) = none) :
    replace_assets_in_content assets c = c := by
  unfold replace_assets_in_content
  rw [passStd_of_no_match assets c h1, passAlt_of_no_match assets c h2,
    passSrc_of_no_match assets c h3, passUrlAlt_of_no_match assets c h4,
    passUrl_of_skips assets c h5]

lemma resolver_on_empty (assets : AssetMap) : replace_assets_in_content assets [] = [] := rfl

/-- Claim C4, counterexample: with a system lookup yielding nothing, the
fallback of get_mime_type sends the png extension to
application/octet-stream, not to image/png as the claim states. -/
theorem image_ext_fallback_cex :
    get_mime_type (fun _ => none) "pic.png".data = "application/octet-stream".data
    ∧ ¬ (get_mime_type (fun _ => none) "pic.png".data = "image/png".data) := by
  decide

/-- Claim C4, amended: when the system lookup yields nothing and the
extension is one of png, jpg, jpeg, gif, the fallback table of
get_mime_type has no entry for it and the application/octet-stream
default is returned; the table only covers js, css, ttf, woff, woff2,
eot and svg. -/
theorem image_ext_fallback_octet (sysMime : Chars → Option Chars) (f : Chars)
    (hsys : sysMime f = none)
    (hext : extOf f = "png".data ∨ extOf f = "jpg".data
      ∨ extOf f = "jpeg".data ∨ extOf f = "gif".data) :
    get_mime_type sysMime f = "application/octet-stream".data := by
  unfold get_mime_type
  rw [hsys]
  show mimeFromExt (extOf f) = "application/octet-stream".data
  rcases hext with h | h | h | h <;> rw [h] <;> decide

/-- Witness for image_ext_fallback_octet at a concrete filename. -/
theorem image_ext_fallback_octet_witness :
    get_mime_type (fun _ => none) "photo.jpeg".data = "application/octet-stream".data :=
  image_ext_fallback_octet (fun _ => none) "photo.jpeg".data rfl
    (Or.inr (Or.inr (Or.inl (by decide))))

/-- Claim C5: decode_base64_if_needed is total and fail-soft: when the
content matches the guarding base64 pattern and both the base64 decode
and the UTF-8 decode of the bytes succeed, the decoded text is returned;
in every other case (pattern mismatch, failed base64 decode, non-UTF-8
bytes) the original content is returned unchanged, and being a total
function the model raises nothing. -/
theorem decode_base64_total_failsoft (s : Chars) :
    (pyB64Match s = true ∧ ∃ t, (b64decodePy s).bind utf8Decode = some t
        ∧ decode_base64_if_needed s = t)
    ∨ ((pyB64Match s = false ∨ (b64decodePy s).bind utf8Decode = none)
        ∧ decode_base64_if_needed s = s) := by
  unfold decode_base64_if_needed
  cases hm : pyB64Match s with
  | false =>
      right
      exact ⟨Or.inl rfl, by simp [hm]⟩
  | true =>
      cases hb : b64decodePy s with
      | none =>
          right
          exact ⟨Or.inr rfl, by simp [hm, hb]⟩
      | some bs =>
          cases hu : utf8Decode bs with
          | none =>
              right
              exact ⟨Or.inr hu, by simp [hm, hb, hu]⟩
          | some t =>
              left
              exact ⟨rfl, t, hu, by simp [hm, hb, hu]⟩

lemma binFold_mime (sysMime : Chars → Option Chars) :
    ∀ (bins : List (Chars × List Nat)) (m : AssetMap),
      (∀ k v, dlookup m k = some v → v.mime = get_mime_type sysMime k) →
      ∀ k v, dlookup (List.foldl (binStep sysMime) m bins) k = some v
        → v.mime = get_mime_type sysMime k := by
  intro bins
  induction bins with
  | nil => intro m h; simpa using h
  | cons p rest ih =>
      intro m h
      rw [List.foldl_cons]
      apply ih
      intro k v hkv
      unfold binStep at hkv
      rw [dlookup_dinsert] at hkv
      by_cases hk : k = p.1
      · rw [if_pos hk] at hkv
        have hv := Option.some.inj hkv
        rw [← hv, hk]
      · rw [if_neg hk] at hkv
        exact h k v hkv

lemma jsonFold_mime (sysMime : Chars → Option Chars) :
    ∀ (jsons : List (Option Chars × Chars)) (m : AssetMap),
      (∀ k v, dlookup m k = some v → v.mime = get_mime_type sysMime k) →
      ∀ k v, dlookup (List.foldl (jsonStep sysMime) m jsons) k = some v
        → v.mime = get_mime_type sysMime k := by
  intro jsons
  induction jsons with
  | nil => intro m h; simpa using h
  | cons p rest ih =>
      intro m h
      rw [List.foldl_cons]
      apply ih
      intro k v hkv
      unfold jsonStep at hkv
      cases hp : p.1 with
      | none => rw [hp] at hkv; exact h k v hkv
      | some name =>
          rw [hp] at hkv
          dsimp only at hkv
          by_cases hne : name = []
          · rw [if_pos hne] at hkv
            exact h k v hkv
          · rw [if_neg hne] at hkv
            rw [dlookup_dinsert] at hkv
            by_cases hk : k = name
            · rw [if_pos hk] at hkv
              have hv := Option.some.inj hkv
              rw [← hv, hk]
            · rw [if_neg hk] at hkv
              exact h k v hkv

lemma textFold_mime (sysMime : Chars → Option Chars) :
    ∀ (texts : List (Chars × Chars)) (m : AssetMap),
      (∀ k v, dlookup m k = some v → v.mime = get_mime_type sysMime k) →
      ∀ k v, dlookup (List.foldl (textStep sysMime) m texts) k = some v
        → v.mime = get_mime_type sysMime k := by
  intro texts
  induction texts with
  | nil => intro m h; simpa using h
  | cons p rest ih =>
      intro m h
      rw [List.foldl_cons]
      apply ih
      intro k v hkv
      unfold textStep at hkv
      by_cases hs : (dlookup m p.1).isSome
      · rw [if_pos hs] at hkv
        exact h k v hkv
      · rw [if_neg hs] at hkv
        rw [dlookup_dinsert] at hkv
        by_cases hk : k = p.1
        · rw [if_pos hk] at hkv
          have hv := Option.some.inj hkv
          rw [← hv, hk]
        · rw [if_neg hk] at hkv
          exact h k v hkv

/-- Claim C9: every entry of the registry built by process_assets stores
exactly the classifier's result on its own name as its mime type,
whichever of the three discovery passes registered it. -/
theorem registry_mime_invariant (sysMime : Chars → Option Chars)
    (bins : List (Chars × List Nat)) (jsons : List (Option Chars × Chars))
    (texts : List (Chars × Chars)) (k : Chars) (v : AEntry)
    (h : dlookup (process_assets sysMime bins jsons texts) k = some v) :
    v.mime = get_mime_type sysMime k := by
  unfold process_assets assetsPass3 assetsPass2 assetsPass1 at h
  refine textFold_mime sysMime texts _ (jsonFold_mime sysMime jsons _
    (binFold_mime sysMime bins [] ?_)) k v h
  intro k2 v2 h2
  simp [dlookup] at h2

/-- Witness for registry_mime_invariant on a concrete one-asset run. -/
theorem registry_mime_invariant_witness :
    (⟨"AQID".data, "application/octet-stream".data⟩ : AEntry).mime
      = get_mime_type (fun _ => none) "x.png".data :=
  registry_mime_invariant (fun _ => none) [("x.png".data, [1, 2, 3])] [] [] "x.png".data
    ⟨"AQID".data, "application/octet-stream".data⟩ (by decide)

/-- Claim C1, counterexample: a pass-2 JSON descriptor whose name equals a
pass-1 binary asset name overwrites the pass-1 registry entry, so the
registry does not retain the pass-1 content (which would have been the
base64 encoding AQID of the bytes). -/
theorem pass2_overwrites_pass1_cex :
    dlookup (process_assets (fun _ => none) [("x.png".data, [1, 2, 3])]
        [(some "x.png".data, "NEW".data)] []) "x.png".data
      = some ⟨"NEW".data, "application/octet-stream".data⟩
    ∧ ¬ ("NEW".data = b64encode [1, 2, 3]) := by
  decide

lemma textFold_preserves (sysMime : Chars → Option Chars) :
    ∀ (texts : List (Chars × Chars)) (m : AssetMap) (k : Chars) (v : AEntry),
      dlookup m k = some v → dlookup (List.foldl (textStep sysMime) m texts) k = some v := by
  intro texts
  induction texts with
  | nil => intro m k v h; simpa using h
  | cons p rest ih =>
      intro m k v h
      rw [List.foldl_cons]
      apply ih
      unfold textStep
      by_cases hs : (dlookup m p.1).isSome
      · rw [if_pos hs]; exact h
      · rw [if_neg hs]
        rw [dlookup_dinsert]
        by_cases hk : k = p.1
        · exfalso
          apply hs
          rw [← hk, h]
          rfl
        · rw [if_neg hk]; exact h

/-- Claim C1, amended: first-source-wins holds for pass 3 only: any entry
present after passes 1 and 2 survives the loose-text pass unchanged,
whereas a pass-2 JSON descriptor overwrites a pass-1 entry of the same
name unconditionally (the counterexample). -/
theorem pass3_preserves_existing (sysMime : Chars → Option Chars)
    (bins : List (Chars × List Nat)) (jsons : List (Option Chars × Chars))
    (texts : List (Chars × Chars)) (k : Chars) (v : AEntry)
    (h : dlookup (assetsPass2 sysMime jsons (assetsPass1 sysMime bins)) k = some v) :
    dlookup (process_assets sysMime bins jsons texts) k = some v := by
  unfold process_assets assetsPass3
  exact textFold_preserves sysMime texts _ k v h

/-- Witness for pass3_preserves_existing: a pass-1 binary asset survives a
clashing pass-3 loose text file. -/
theorem pass3_preserves_existing_witness :
    dlookup (process_assets (fun _ => none) [("x.png".data, [1, 2, 3])] []
        [("x.png".data, "T".data)]) "x.png".data
      = some ⟨"AQID".data, "application/octet-stream".data⟩ :=
  pass3_preserves_existing (fun _ => none) [("x.png".data, [1, 2, 3])] []
    [("x.png".data, "T".data)] "x.png".data
    ⟨"AQID".data, "application/octet-stream".data⟩ (by decide)

/-- Claim C3, counterexample: a standard tag with the registered name
a.css and the unknown mode binary is not left untouched: the resolver
replaces the occurrence with the empty string. -/
theorem unknown_mode_removed_cex :
    replace_assets_in_content [("a.css".data, ⟨"body".data, "text/css".data⟩)]
        (stdTag "a.css".data "binary".data) = []
    ∧ ¬ (replace_assets_in_content [("a.css".data, ⟨"body".data, "text/css".data⟩)]
        (stdTag "a.css".data "binary".data) = stdTag "a.css".data "binary".data) := by
  decide

/-- Claim C3, amended: for a standard tag whose name is registered and
whose mode is neither utf8 nor dataURI, the occurrence is replaced by the
empty string (the loop builds an empty replacement and performs the
substitution anyway), so a content consisting of such a tag resolves to
the empty string. -/
theorem unknown_mode_gives_empty (assets : AssetMap) (n mode : Chars) (a : AEntry)
    (hn : n ≠ []) (hqn : ∀ c ∈ n, isQuote c = false)
    (hm : mode ≠ []) (hqm : ∀ c ∈ mode, isQuote c = false)
    (hm1 : mode ≠ modeUtf8) (hm2 : mode ≠ modeDataURI)
    (hlook : dlookup assets n = some a) :
    replace_assets_in_content assets (stdTag n mode) = [] := by
  have hstd : passStd assets (stdTag n mode) = [] := by
    unfold passStd
    rw [findIter_stdTag n mode hn hqn hm hqm, List.foldl_cons, List.foldl_nil]
    show applyStd assets (stdTag n mode) ⟨stdTag n mode, n, mode⟩ = []
    unfold applyStd
    rw [hlook]
    dsimp only
    rw [if_neg hm1, if_neg hm2]
    exact replaceAll_self '\x7b' (stdTagTail n mode) []
  unfold replace_assets_in_content
  rw [hstd]
  rfl

/-- Witness for unknown_mode_gives_empty at a concrete registry and tag. -/
theorem unknown_mode_gives_empty_witness :
    replace_assets_in_content [("a.css".data, ⟨"body".data, "text/css".data⟩)]
        (stdTag "a.css".data "zip".data) = [] :=
  unknown_mode_gives_empty [("a.css".data, ⟨"body".data, "text/css".data⟩)]
    "a.css".data "zip".data ⟨"body".data, "text/css".data⟩
    (by decide) (by decide) (by decide) (by decide) (by decide) (by decide) (by decide)

/-- Claim C7: a standard tag whose asset name is not in the registry is
left byte-for-byte unchanged by the resolver (and the model is a total
function, so no error is raised); the side conditions state that the tag
text itself triggers none of the other four patterns. -/
theorem unresolved_name_untouched (assets : AssetMap) (n mode : Chars)
    (hn : n ≠ []) (hqn : ∀ c ∈ n, isQuote c = false)
    (hm : mode ≠ []) (hqm : ∀ c ∈ mode, isQuote c = false)
    (hmiss : dlookup assets n = none)
    (h2 : findIter tryAlt (stdTag n mode) = [])
    (h3 : findIter trySrc (stdTag n mode) = [])
    (h4 : findIter tryUrlAlt (stdTag n mode) = [])
    (h5 : ∀ mm ∈ findIter tryUrl (stdTag n mode), isPrefixC dataColon mm.g1 = true
        ∨ dlookup assets (lastSeg mm.g1) = none) :
    replace_assets_in_content assets (stdTag n mode) = stdTag n mode := by
  have hstd : passStd assets (stdTag n mode) = stdTag n mode := by
    unfold passStd
    rw [findIter_stdTag n mode hn hqn hm hqm]
    apply foldl_applyStd_unres
    intro mm hmm
    have : mm = ⟨stdTag n mode, n, mode⟩ := by simpa using hmm
    rw [this]
    exact hmiss
  unfold replace_assets_in_content
  rw [hstd, passAlt_of_no_match assets _ h2, passSrc_of_no_match assets _ h3,
    passUrlAlt_of_no_match assets _ h4, passUrl_of_skips assets _ h5]

/-- Witness for unresolved_name_untouched: the missing.css example of the
spec against an empty registry. -/
theorem unresolved_name_untouched_witness :
    replace_assets_in_content [] (stdTag "missing.css".data "utf8".data)
      = stdTag "missing.css".data "utf8".data :=
  unresolved_name_untouched [] "missing.css".data "utf8".data
    (by decide) (by decide) (by decide) (by decide) (by decide)
    (by decide) (by decide) (by decide) (by decide)

/-- Claim C2, counterexample: for the text-stored asset a.css with content
body, dataURI mode produces data:text/css;base64,body with the stored
text inserted verbatim; the base64 portion is not the base64 encoding of
the text (the UTF-8 bytes of body are 98 111 100 121, whose encoding is
Ym9keQ==), so base64-decoding the portion cannot reproduce the text. -/
theorem dataURI_not_reencoded_cex :
    replace_assets_in_content [("a.css".data, ⟨"body".data, "text/css".data⟩)]
        (stdTag "a.css".data modeDataURI)
      = "data:text/css;base64,body".data
    ∧ utf8Decode [98, 111, 100, 121] = some "body".data
    ∧ ¬ ("data:text/css;base64,body".data
        = "data:text/css;base64,".data ++ b64encode [98, 111, 100, 121]) := by
  decide

/-- Claim C2, amended: utf8 mode returns exactly the stored content, and
dataURI mode returns data:, the stored mime type, the base64 marker and
the stored content inserted verbatim with no re-encoding (so the payload
is real base64 only for assets stored base64-encoded, the binary ones);
the side conditions state that the substituted texts trigger none of the
later passes. -/
theorem std_tag_resolution (assets : AssetMap) (n : Chars) (a : AEntry)
    (hn : n ≠ []) (hqn : ∀ c ∈ n, isQuote c = false)
    (hlook : dlookup assets n = some a)
    (hA2 : findIter tryAlt a.content = []) (hA3 : findIter trySrc a.content = [])
    (hA4 : findIter tryUrlAlt a.content = [])
    (hA5 : ∀ mm ∈ findIter tryUrl a.content, isPrefixC dataColon mm.g1 = true
        ∨ dlookup assets (lastSeg mm.g1) = none)
    (hB2 : findIter tryAlt (dataUriChars a) = [])
    (hB3 : findIter trySrc (dataUriChars a) = [])
    (hB4 : findIter tryUrlAlt (dataUriChars a) = [])
    (hB5 : ∀ mm ∈ findIter tryUrl (dataUriChars a), isPrefixC dataColon mm.g1 = true
        ∨ dlookup assets (lastSeg mm.g1) = none) :
    replace_assets_in_content assets (stdTag n modeUtf8) = a.content
    ∧ replace_assets_in_content assets (stdTag n modeDataURI) = dataUriChars a := by
  constructor
  · have hstd : passStd assets (stdTag n modeUtf8) = a.content := by
      unfold passStd
      rw [findIter_stdTag n modeUtf8 hn hqn (by decide) (by decide),
        List.foldl_cons, List.foldl_nil]
      show applyStd assets (stdTag n modeUtf8) ⟨stdTag n modeUtf8, n, modeUtf8⟩ = a.content
      unfold applyStd
      rw [hlook]
      dsimp only
      rw [if_pos rfl]
      exact replaceAll_self '\x7b' (stdTagTail n modeUtf8) a.content
    unfold replace_assets_in_content
    rw [hstd, passAlt_of_no_match assets _ hA2, passSrc_of_no_match assets _ hA3,
      passUrlAlt_of_no_match assets _ hA4, passUrl_of_skips assets _ hA5]
  · have hstd : passStd assets (stdTag n modeDataURI) = dataUriChars a := by
      unfold passStd
      rw [findIter_stdTag n modeDataURI hn hqn (by decide) (by decide),
        List.foldl_cons, List.foldl_nil]
      show applyStd assets (stdTag n modeDataURI) ⟨stdTag n modeDataURI, n, modeDataURI⟩
          = dataUriChars a
      unfold applyStd
      rw [hlook]
      dsimp only
      rw [if_neg (show ¬ (modeDataURI = modeUtf8) by decide), if_pos rfl]
      exact replaceAll_self '\x7b' (stdTagTail n modeDataURI) (dataUriChars a)
    unfold replace_assets_in_content
    rw [hstd, passAlt_of_no_match assets _ hB2, passSrc_of_no_match assets _ hB3,
      passUrlAlt_of_no_match assets _ hB4, passUrl_of_skips assets _ hB5]

/-- Witness for std_tag_resolution at a concrete one-asset registry. -/
theorem std_tag_resolution_witness :
    replace_assets_in_content [("a.css".data, ⟨"body".data, "text/css".data⟩)]
        (stdTag "a.css".data modeUtf8) = "body".data
    ∧ replace_assets_in_content [("a.css".data, ⟨"body".data, "text/css".data⟩)]
        (stdTag "a.css".data modeDataURI)
      = dataUriChars ⟨"body".data, "text/css".data⟩ :=
  std_tag_resolution [("a.css".data, ⟨"body".data, "text/css".data⟩)]
    "a.css".data ⟨"body".data, "text/css".data⟩
    (by decide) (by decide) (by decide) (by decide) (by decide) (by decide) (by decide)
    (by decide) (by decide) (by decide) (by decide)

/-- Claim C6: on content free of every placeholder syntax except bare url
expressions whose url already carries the data: prefix, the resolver is
the identity, and so applying it twice gives the same output as applying
it once. -/
theorem resolver_idempotent_on_resolved (assets : AssetMap) (c : Chars)
    (h1 : findIter tryStd c = []) (h2 : findIter tryAlt c = [])
    (h3 : findIter trySrc c = []) (h4 : findIter tryUrlAlt c = [])
    (h5 : ∀ mm ∈ findIter tryUrl c, isPrefixC dataColon mm.g1 = true) :
    replace_assets_in_content assets c = c
    ∧ replace_assets_in_content assets (replace_assets_in_content assets c)
      = replace_assets_in_content assets c := by
  have hfix := resolver_fix assets c h1 h2 h3 h4 (fun mm hmm => Or.inl (h5 mm hmm))
  exact ⟨hfix, by rw [hfix]; exact hfix⟩

/-- Witness for resolver_idempotent_on_resolved on already-resolved CSS
content holding one data: url. -/
theorem resolver_idempotent_on_resolved_witness :
    replace_assets_in_content [("icon.woff".data, ⟨"AAAA".data, "font/woff".data⟩)]
        "body \x7b background: url(data:image/png;base64,iVBOR); \x7d".data
      = "body \x7b background: url(data:image/png;base64,iVBOR); \x7d".data
    ∧ replace_assets_in_content [("icon.woff".data, ⟨"AAAA".data, "font/woff".data⟩)]
        (replace_assets_in_content [("icon.woff".data, ⟨"AAAA".data, "font/woff".data⟩)]
          "body \x7b background: url(data:image/png;base64,iVBOR); \x7d".data)
      = replace_assets_in_content [("icon.woff".data, ⟨"AAAA".data, "font/woff".data⟩)]
          "body \x7b background: url(data:image/png;base64,iVBOR); \x7d".data :=
  resolver_idempotent_on_resolved [("icon.woff".data, ⟨"AAAA".data, "font/woff".data⟩)]
    "body \x7b background: url(data:image/png;base64,iVBOR); \x7d".data
    (by decide) (by decide) (by decide) (by decide) (by decide)

lemma klookup_kupdate_self : ∀ (fields : List (Chars × JVal)) (k : Chars) (v : JVal),
    klookup (kupdate fields k v) k = some v := by
  intro fields
  induction fields with
  | nil => intro k v; simp [kupdate, klookup]
  | cons p rest ih =>
      intro k v
      obtain ⟨k1, v1⟩ := p
      by_cases h : k1 = k
      · subst h; simp [kupdate, klookup]
      · simp [kupdate, klookup, h, ih]

lemma klookup_kupdate_other : ∀ (fields : List (Chars × JVal)) (k : Chars) (v : JVal)
    (k2 : Chars), k2 ≠ k → klookup (kupdate fields k v) k2 = klookup fields k2 := by
  intro fields
  induction fields with
  | nil => intro k v k2 h; simp [kupdate, klookup, Ne.symm h]
  | cons p rest ih =>
      intro k v k2 h
      obtain ⟨k1, v1⟩ := p
      by_cases h1 : k1 = k
      · subst h1
        simp [kupdate, klookup, Ne.symm h]
      · by_cases h2 : k1 = k2
        · subst h2; simp [kupdate, klookup, h1]
        · simp [kupdate, klookup, h1, h2, ih k v k2 h]

/-- Claim C8: a template descriptor that parses to an object is emitted
with every field other than content identical to the loaded one, with the
content field, when present as a string, replaced by the resolver output
and everything else untouched when content is absent; and the emitted
record is appended exactly once, in place, by the directory loop. -/
theorem template_content_frame (assets : AssetMap) (fields : List (Chars × JVal)) (t : JVal)
    (h : processTemplateFile assets (JVal.jobj fields) = some t) :
    (∃ fields2, t = JVal.jobj fields2
      ∧ (∀ k2, k2 ≠ "content".data → klookup fields2 k2 = klookup fields k2)
      ∧ (∀ s, klookup fields "content".data = some (JVal.jstr s) →
          klookup fields2 "content".data
            = some (JVal.jstr (replace_assets_in_content assets s)))
      ∧ (klookup fields "content".data = none → fields2 = fields))
    ∧ (∀ vs, goDir assets (JVal.jobj fields :: vs) = t :: goDir assets vs) := by
  have hgo : ∀ vs, goDir assets (JVal.jobj fields :: vs) = t :: goDir assets vs := by
    intro vs
    show (match processTemplateFile assets (JVal.jobj fields) with
          | some t2 => t2 :: goDir assets vs
          | none => goDir assets vs) = t :: goDir assets vs
    rw [h]
  refine ⟨?_, hgo⟩
  cases hc : klookup fields "content".data with
  | none =>
      simp only [processTemplateFile, hc] at h
      have ht : t = JVal.jobj fields := (Option.some.inj h).symm
      refine ⟨fields, ht, fun k2 _ => rfl, ?_, fun _ => rfl⟩
      intro s hs
      cases hs
  | some w =>
      cases w with
      | jstr s =>
          simp only [processTemplateFile, hc] at h
          have ht : t = JVal.jobj (kupdate fields "content".data
              (JVal.jstr (replace_assets_in_content assets s))) := (Option.some.inj h).symm
          refine ⟨_, ht, ?_, ?_, ?_⟩
          · intro k2 hk2
            exact klookup_kupdate_other fields _ _ k2 hk2
          · intro s2 hs2
            have hss : s = s2 := by
              have hj := Option.some.inj hs2
              cases hj
              rfl
            rw [← hss]
            exact klookup_kupdate_self fields _ _
          · intro hnone
            cases hnone
      | jnull =>
          simp only [processTemplateFile, hc] at h
          exact Option.noConfusion h
      | jbool b =>
          simp only [processTemplateFile, hc] at h
          exact Option.noConfusion h
      | jnum q =>
          simp only [processTemplateFile, hc] at h
          exact Option.noConfusion h
      | jarr ys =>
          simp only [processTemplateFile, hc] at h
          exact Option.noConfusion h
      | jobj fs =>
          simp only [processTemplateFile, hc] at h
          exact Option.noConfusion h

/-- Witness for template_content_frame on a concrete two-field template
descriptor processed against the empty registry. -/
theorem template_content_frame_witness :
    (∃ fields2, JVal.jobj [("name".data, JVal.jstr "r".data),
        ("content".data, JVal.jstr "hello".data)] = JVal.jobj fields2
      ∧ (∀ k2, k2 ≠ "content".data → klookup fields2 k2
          = klookup [("name".data, JVal.jstr "r".data),
              ("content".data, JVal.jstr "hello".data)] k2)
      ∧ (∀ s, klookup [("name".data, JVal.jstr "r".data),
            ("content".data, JVal.jstr "hello".data)] "content".data
              = some (JVal.jstr s) →
          klookup fields2 "content".data
            = some (JVal.jstr (replace_assets_in_content [] s)))
      ∧ (klookup [("name".data, JVal.jstr "r".data),
            ("content".data, JVal.jstr "hello".data)] "content".data = none →
          fields2 = [("name".data, JVal.jstr "r".data),
            ("content".data, JVal.jstr "hello".data)]))
    ∧ (∀ vs, goDir [] (JVal.jobj [("name".data, JVal.jstr "r".data),
          ("content".data, JVal.jstr "hello".data)] :: vs)
        = JVal.jobj [("name".data, JVal.jstr "r".data),
            ("content".data, JVal.jstr "hello".data)] :: goDir [] vs) :=
  template_content_frame [] [("name".data, JVal.jstr "r".data),
      ("content".data, JVal.jstr "hello".data)]
    (JVal.jobj [("name".data, JVal.jstr "r".data),
      ("content".data, JVal.jstr "hello".data)]) (by rfl)

/-- Claim C10: with the dedicated templates directory present, a
descriptor parsing to a JSON array without a content element is appended
verbatim to the output, while the root fallback path never includes a
non-object descriptor (here the same array yields no record). -/
theorem template_dir_root_asymmetry (assets : AssetMap) (xs : List JVal) (n : Chars)
    (h : hasContentElem xs = false) :
    processTemplateFile assets (JVal.jarr xs) = some (JVal.jarr xs)
    ∧ processRootFile assets (JVal.jarr xs) = none
    ∧ process_templates assets true [JVal.jarr xs] [] = [JVal.jarr xs]
    ∧ process_templates assets false [] [(n, JVal.jarr xs)] = [] := by
  have h1 : processTemplateFile assets (JVal.jarr xs) = some (JVal.jarr xs) := by
    unfold processTemplateFile
    simp [h]
  have h2 : processRootFile assets (JVal.jarr xs) = none := rfl
  refine ⟨h1, h2, ?_, ?_⟩
  · show goDir assets [JVal.jarr xs] = [JVal.jarr xs]
    show (match processTemplateFile assets (JVal.jarr xs) with
          | some t => t :: goDir assets []
          | none => goDir assets []) = [JVal.jarr xs]
    rw [h1]
    rfl
  · show goRoot assets [(n, JVal.jarr xs)] = []
    show (if n = "export.json".data then goRoot assets []
          else match processRootFile assets (JVal.jarr xs) with
            | some t => t :: goRoot assets []
            | none => goRoot assets []) = []
    by_cases hn : n = "export.json".data
    · rw [if_pos hn]
      rfl
    · rw [if_neg hn, h2]
      rfl

/-- Witness for template_dir_root_asymmetry at a concrete one-element
array descriptor. -/
theorem template_dir_root_asymmetry_witness :
    processTemplateFile [] (JVal.jarr [JVal.jstr "a".data])
      = some (JVal.jarr [JVal.jstr "a".data])
    ∧ processRootFile [] (JVal.jarr [JVal.jstr "a".data]) = none
    ∧ process_templates [] true [JVal.jarr [JVal.jstr "a".data]] []
      = [JVal.jarr [JVal.jstr "a".data]]
    ∧ process_templates [] false [] [("t.json".data, JVal.jarr [JVal.jstr "a".data])] = [] :=
  template_dir_root_asymmetry [] [JVal.jstr "a".data] "t.json".data (by rfl)
